import Mathlib

/-
Shallow embedding of src/main.rs of the opentelemetry-zenoh example
(roles sensor / computing / motion), together with the behavior of the
external library calls the program's observable behavior depends on:
opentelemetry's TraceContextPropagator (W3C traceparent inject/extract,
opentelemetry 0.16 era, tracestate handling elided), the SDK span builder
parenting rule, and serde_json's codec for the Message struct restricted
to the canonical encoding serde_json::to_string emits.

Strings are modelled as lists of characters; machine integers as Nat with
explicit bounds where the width matters (u128 trace ids, u64 span ids,
u64 sleep_time).  Each stage's async loop is modelled as a step relation
over the interleaved list of delivered events (subscription changes and
stdin bytes), reflecting that the select! races the two sources once per
iteration and that the branch bodies contain no further cancellation
point.
-/

namespace ZenohOtel

abbrev RStr := List Char

/-- Digit character for values 0..15, as produced by Rust's lower-hex and
decimal formatting (0..9 then a..f). -/
def hexDigitChar (d : Nat) : Char :=
  if d < 10 then Char.ofNat (48 + d) else Char.ofNat (87 + d)

/-- Fixed-width lower-hex rendering of a natural number, most significant
digit first; models Rust's 02x / 016x / 032x format specifiers. -/
def toHexFixed : Nat → Nat → RStr
  | 0, _ => []
  | w + 1, n => toHexFixed w (n / 16) ++ [hexDigitChar (n % 16)]

/-- Value of one hex digit, upper or lower case; models char::to_digit(16). -/
def hexDigitVal (c : Char) : Option Nat :=
  if '0' ≤ c ∧ c ≤ '9' then some (c.toNat - 48)
  else if 'a' ≤ c ∧ c ≤ 'f' then some (c.toNat - 87)
  else if 'A' ≤ c ∧ c ≤ 'F' then some (c.toNat - 55)
  else none

/-- Accumulating hex parse; fails on the first non-hex character. -/
def parseHexCore : RStr → Nat → Option Nat
  | [], acc => some acc
  | c :: rest, acc =>
    match hexDigitVal c with
    | some v => parseHexCore rest (acc * 16 + v)
    | none => none

/-- Rust from_str_radix accepts one optional leading plus sign. -/
def stripPlus : RStr → RStr
  | [] => []
  | c :: rest => if c = '+' then rest else c :: rest

/-- Model of Rust's uN::from_str_radix(s, 16): optional plus sign, then a
nonempty run of hex digits; errors on overflow past bound = 2^N. -/
def fromStrRadix16 (s : RStr) (bound : Nat) : Option Nat :=
  let t := stripPlus s
  if t = [] then none
  else
    match parseHexCore t 0 with
    | some v => if v < bound then some v else none
    | none => none

/-- Split on a separator character, keeping empty segments; models Rust
str::split. -/
def splitCh (sep : Char) : RStr → List RStr
  | [] => [[]]
  | c :: rest =>
    match splitCh sep rest with
    | [] => [[]]
    | h :: t => if c = sep then [] :: h :: t else (c :: h) :: t

/-- Models Rust str::split_terminator: like split, but a trailing empty
segment (string empty or ending in the separator) is dropped. -/
def splitTerminatorCh (sep : Char) (s : RStr) : List RStr :=
  let r := splitCh sep s
  if r.getLast? = some [] then r.dropLast else r

/-- Models Rust str::trim for the ASCII whitespace the program can meet. -/
def rustTrim (s : RStr) : RStr :=
  ((s.dropWhile Char.isWhitespace).reverse.dropWhile Char.isWhitespace).reverse

/-- Models Rust char::is_ascii_uppercase. -/
def isAsciiUppercase (c : Char) : Bool :=
  'A' ≤ c && c ≤ 'Z'

/-- String-keyed map with one entry per key; models std HashMap<String,String>
as used through insert and index lookups. -/
abbrev StrMap := List (RStr × RStr)

def strMapGet : StrMap → RStr → Option RStr
  | [], _ => none
  | (k, v) :: rest, key => if k = key then some v else strMapGet rest key

def strMapInsert : StrMap → RStr → RStr → StrMap
  | [], key, v => [(key, v)]
  | (k, w) :: rest, key, v =>
    if k = key then (k, v) :: rest else (k, w) :: strMapInsert rest key v

def traceparentKey : RStr := "traceparent".data
def tracestateKey : RStr := "tracestate".data

/-- Trace-context identifier: trace id (u128), span id (u64), trace flags
(u8), remote marker; models opentelemetry SpanContext without tracestate. -/
structure SpanContext where
  traceId : Nat
  spanId : Nat
  traceFlags : Nat
  isRemote : Bool
deriving DecidableEq, Repr

/-- Models SpanContext::is_valid: nonzero trace id and span id. -/
def scIsValid (sc : SpanContext) : Bool :=
  sc.traceId != 0 && sc.spanId != 0

/-- The traceparent header value the propagator formats: version 00, 32 hex
digits of trace id, 16 of span id, 2 of the sampled flag. -/
def traceparentValue (sc : SpanContext) : RStr :=
  toHexFixed 2 0 ++ '-' :: toHexFixed 32 sc.traceId ++
    '-' :: toHexFixed 16 sc.spanId ++ '-' :: toHexFixed 2 (sc.traceFlags &&& 1)

/-- A Context is the (span context of the) active span, if any; a context
holding no span behaves as one holding an invalid span context. -/
abbrev TraceCx := Option SpanContext

/-- Models TraceContextPropagator::inject_context: writes traceparent and
tracestate only when the active span context is valid, else does nothing. -/
def injectContext (cx : TraceCx) (injector : StrMap) : StrMap :=
  match cx with
  | some sc =>
    if scIsValid sc then
      strMapInsert (strMapInsert injector traceparentKey (traceparentValue sc))
        tracestateKey []
    else injector
  | none => injector

def maxVersion : Nat := 254

/-- Field validation of the dash-split traceparent header: version, lowercase
hex ids, flags, and rejection of an invalid resulting span context; models
the body of TraceContextPropagator::extract_span_context after the split. -/
def extractParts : List RStr → Option SpanContext
  | vPart :: tidPart :: sidPart :: optsPart :: restParts =>
    match fromStrRadix16 vPart 256 with
    | none => none
    | some version =>
      if version > maxVersion ∨ (version = 0 ∧ restParts ≠ []) then none
      else if tidPart.any isAsciiUppercase then none
      else
        let traceId := (fromStrRadix16 tidPart (2 ^ 128)).getD 0
        if sidPart.any isAsciiUppercase then none
        else
          let spanId := (fromStrRadix16 sidPart (2 ^ 64)).getD 0
          match fromStrRadix16 optsPart 256 with
          | none => none
          | some opts =>
            if version = 0 ∧ opts > 2 then none
            else
              let sc : SpanContext := ⟨traceId, spanId, opts &&& 1, true⟩
              if scIsValid sc then some sc else none
  | _ => none

/-- Models TraceContextPropagator::extract_span_context: read and trim the
traceparent header, split on dashes, then validate the parts. -/
def extractSpanContext (m : StrMap) : Option SpanContext :=
  extractParts
    (splitTerminatorCh '-' (rustTrim ((strMapGet m traceparentKey).getD [])))

/-- Models propagator.extract: a context carrying the remote span context on
success, the unchanged (empty) current context — a detached handle — on any
failure. -/
def extractContext (m : StrMap) : TraceCx :=
  extractSpanContext m

/-- The wire payload struct of main.rs (derive Serialize, Deserialize). -/
structure Message where
  sleep_time : Nat
  span_context : RStr
deriving DecidableEq, Repr

/-- Decimal digits, fuel-driven so that the kernel can evaluate it; any fuel
of at least n steps yields the digits of n, most significant first. -/
def decimalDigitsAux : Nat → Nat → RStr
  | _, 0 => []
  | 0, _ + 1 => []
  | fuel + 1, n + 1 =>
    decimalDigitsAux fuel ((n + 1) / 10) ++ [hexDigitChar ((n + 1) % 10)]

/-- Decimal digits of a natural number, most significant first; empty for 0. -/
def decimalDigits (n : Nat) : RStr :=
  decimalDigitsAux n n

/-- Decimal rendering of a u64, as serde_json prints sleep_time. -/
def natToDecimal (n : Nat) : RStr :=
  if n = 0 then ['0'] else decimalDigits n

/-- Consume a literal from the front of the input, or fail. -/
def stripLit : RStr → RStr → Option RStr
  | [], s => some s
  | _ :: _, [] => none
  | p :: ps, c :: cs => if c = p then stripLit ps cs else none

/-- Maximal run of decimal digits with its value. -/
def parseDigitsCore : RStr → Nat → Nat × RStr
  | [], acc => (acc, [])
  | c :: rest, acc =>
    if '0' ≤ c ∧ c ≤ '9' then parseDigitsCore rest (acc * 10 + (c.toNat - 48))
    else (acc, c :: rest)

/-- At least one decimal digit, maximal munch. -/
def parseDigits (s : RStr) : Option (Nat × RStr) :=
  match s with
  | [] => none
  | c :: _ => if '0' ≤ c ∧ c ≤ '9' then some (parseDigitsCore s 0) else none

/-- Body of a JSON string up to its closing quote; escape sequences are
rejected (none ever occur in a serialized trace context). -/
def parseStringBody : RStr → Option (RStr × RStr)
  | [] => none
  | c :: rest =>
    if c = '\"' then some ([], rest)
    else if c = '\\' then none
    else
      match parseStringBody rest with
      | some (b, r) => some (c :: b, r)
      | none => none

/-- Models serde_json::to_string for Message: field order as declared, no
spaces. -/
def serializeMessage (m : Message) : RStr :=
  "\x7b\"sleep_time\":".data ++ natToDecimal m.sleep_time ++
    ",\"span_context\":\"".data ++ m.span_context ++ "\"\x7d".data

/-- Models serde_json::from_str::<Message> on the canonical encoding that
serializeMessage emits; anything outside that grammar (or a sleep_time past
u64) is rejected, as serde rejects every such input exercised below. -/
def deserializeMessage (s : RStr) : Option Message :=
  match stripLit "\x7b\"sleep_time\":".data s with
  | none => none
  | some s1 =>
    match parseDigits s1 with
    | none => none
    | some (n, s2) =>
      if n < 2 ^ 64 then
        match stripLit ",\"span_context\":\"".data s2 with
        | none => none
        | some s3 =>
          match parseStringBody s3 with
          | none => none
          | some (ctx, s4) =>
            match stripLit "\x7d".data s4 with
            | none => none
            | some s5 => if s5 = [] then some ⟨n, ctx⟩ else none
      else none

/-- Span record as the SDK builds it: name, attributes, own ids, parent span
id (0 when the span is a new root), sampled flags. -/
structure SpanData where
  name : RStr
  attributes : List (RStr × RStr)
  traceId : Nat
  spanId : Nat
  parentSpanId : Nat
  traceFlags : Nat
deriving DecidableEq, Repr

/-- Models the SDK span builder with a parent context (with_parent_context /
root): a valid parent donates trace id, parent span id and sampled flag;
otherwise a fresh trace id is generated, the parent span id is the invalid
zero id, and the default always-on sampler marks the span sampled.  The id
generator's outputs are passed in explicitly. -/
def startSpan (name : RStr) (attrs : List (RStr × RStr)) (parent : TraceCx)
    (freshTraceId freshSpanId : Nat) : SpanData :=
  match parent with
  | some psc =>
    if scIsValid psc then
      ⟨name, attrs, psc.traceId, freshSpanId, psc.spanId, psc.traceFlags &&& 1⟩
    else ⟨name, attrs, freshTraceId, freshSpanId, 0, 1⟩
  | none => ⟨name, attrs, freshTraceId, freshSpanId, 0, 1⟩

/-- The exported identifier of a locally created span. -/
def spanContextOf (sp : SpanData) : SpanContext :=
  ⟨sp.traceId, sp.spanId, sp.traceFlags, false⟩

def MESSAGING_SYSTEM : RStr := "messaging.system".data
def MESSAGING_OPERATION : RStr := "messaging.operation".data
def MESSAGING_DESTINATION : RStr := "messaging.destination".data

def sensorTopic : RStr := "/sensor_data".data
def actionTopic : RStr := "/action".data

/-- Observable actions of one stage, in program order. -/
inductive Action where
  | printedMessage (m : Message)
  | spanStarted (sp : SpanData)
  | addedEvent (name : RStr) (attrs : List (RStr × RStr))
  | slept (millis : Nat)
  | published (topic : RStr) (payload : RStr)
  | spanEnded (sp : SpanData)
  | closedSubscription
deriving DecidableEq, Repr

def sensorAttrs : List (RStr × RStr) :=
  [(MESSAGING_SYSTEM, "zenoh".data),
   (MESSAGING_OPERATION, "send".data),
   (MESSAGING_DESTINATION, "computing".data)]

/-- The sensor role: root span, inject into a fresh map, random acquisition
sleep, build the Message from the injected traceparent (a HashMap index that
panics — none — if the key is absent), add an event, publish once.  The two
rng draws and the id-generator outputs are explicit arguments. -/
def sensorRun (freshTraceId freshSpanId acqSleep outSleep : Nat) :
    Option (List Action) :=
  let span := startSpan "generate sensor data".data sensorAttrs none
    freshTraceId freshSpanId
  let cx : TraceCx := some (spanContextOf span)
  let injector := injectContext cx []
  match strMapGet injector traceparentKey with
  | none => none
  | some tp =>
    let message : Message := ⟨outSleep, tp⟩
    let serialized := serializeMessage message
    some [Action.spanStarted span,
          Action.slept acqSleep,
          Action.addedEvent "sensor data".data
            [("sleeping time".data, natToDecimal message.sleep_time),
             ("span context".data, message.span_context)],
          Action.published sensorTopic serialized,
          Action.spanEnded span]

/-- Payload of a zenoh change: the StringUtf8 variant the loops destructure,
or any other Value variant, which the if-let silently passes over. -/
inductive ZValue where
  | stringUtf8 (s : RStr)
  | nonStringValue
deriving DecidableEq, Repr

/-- A change event; fields used only by the println (kind, path, timestamp)
are elided.  value mirrors change.value: Option, unwrapped by the loops. -/
structure Change where
  value : Option ZValue
deriving DecidableEq, Repr

/-- Outcome of handling one subscription change inside the loop body. -/
inductive ChangeRes where
  | processed (acts : List Action)
  | skipped
  | panicked
deriving DecidableEq, Repr

/-- Per-message random draws: the id generator's trace and span ids and the
rng's outgoing sleep_time. -/
structure Fresh where
  traceId : Nat
  spanId : Nat
  outSleep : Nat
deriving DecidableEq, Repr

def computingAttrs : List (RStr × RStr) :=
  [(MESSAGING_SYSTEM, "zenoh".data),
   (MESSAGING_OPERATION, "process".data),
   (MESSAGING_DESTINATION, "motion".data)]

/-- The computing loop's change branch: unwrap the value (panic on none),
destructure StringUtf8 (silently skip other variants), serde-decode with
unwrap (panic on failure), then print, extract the parent, start the child
span, inject the new context into the same header map, sleep the inbound
sleep_time, build and publish the outgoing Message, and end the span when
the iteration's bindings drop after the publish. -/
def computingChange (fr : Fresh) (c : Change) : ChangeRes :=
  match c.value with
  | none => ChangeRes.panicked
  | some ZValue.nonStringValue => ChangeRes.skipped
  | some (ZValue.stringUtf8 v) =>
    match deserializeMessage v with
    | none => ChangeRes.panicked
    | some message =>
      let reqHeader := strMapInsert [] traceparentKey message.span_context
      let parentCx := extractContext reqHeader
      let span := startSpan "Get sensor data and start computing".data
        computingAttrs parentCx fr.traceId fr.spanId
      let cx : TraceCx := some (spanContextOf span)
      let reqHeader2 := injectContext cx reqHeader
      match strMapGet reqHeader2 traceparentKey with
      | none => ChangeRes.panicked
      | some tp =>
        let outMessage : Message := ⟨fr.outSleep, tp⟩
        let serialized := serializeMessage outMessage
        ChangeRes.processed
          [Action.printedMessage message,
           Action.spanStarted span,
           Action.slept message.sleep_time,
           Action.published actionTopic serialized,
           Action.spanEnded span]

def motionAttrs : List (RStr × RStr) :=
  [(MESSAGING_SYSTEM, "zenoh".data),
   (MESSAGING_OPERATION, "receive".data)]

/-- The motion loop's change branch: like computing but terminal — print,
extract, start the leaf span, sleep the inbound sleep_time, publish nothing,
drop the span after the sleep. -/
def motionChange (fr : Fresh) (c : Change) : ChangeRes :=
  match c.value with
  | none => ChangeRes.panicked
  | some ZValue.nonStringValue => ChangeRes.skipped
  | some (ZValue.stringUtf8 v) =>
    match deserializeMessage v with
    | none => ChangeRes.panicked
    | some message =>
      let reqHeader := strMapInsert [] traceparentKey message.span_context
      let parentCx := extractContext reqHeader
      let span := startSpan "Get computing output and start motion".data
        motionAttrs parentCx fr.traceId fr.spanId
      ChangeRes.processed
        [Action.printedMessage message,
         Action.spanStarted span,
         Action.slept message.sleep_time,
         Action.spanEnded span]

/-- One delivered event per loop iteration: the select! races the next
subscription change against the next stdin byte. -/
inductive Event where
  | change (c : Change)
  | stdinByte (b : Nat)
deriving DecidableEq, Repr

/-- How a loop run left off over a finite event list. -/
inductive LoopExit where
  | running
  | stopped
  | panicked
deriving DecidableEq, Repr

/-- The stdin stop sentinel: the byte of the character q. -/
def stopByte : Nat := 113

/-- The subscribe loop of computing / motion over the interleaved event
list: one event per iteration; a change branch runs its whole body (no
cancellation point inside); the stdin branch exits only on the sentinel
byte, then the subscription is closed.  A fresh draw is consumed exactly
when a message is fully processed. -/
def loopRun (step : Fresh → Change → ChangeRes) :
    List Fresh → List Event → List Action × LoopExit
  | _, [] => ([], LoopExit.running)
  | frs, Event.change c :: rest =>
    match step (frs.headD ⟨0, 0, 0⟩) c with
    | ChangeRes.panicked => ([], LoopExit.panicked)
    | ChangeRes.skipped => loopRun step frs rest
    | ChangeRes.processed acts =>
      let r := loopRun step frs.tail rest
      (acts ++ r.1, r.2)
  | frs, Event.stdinByte b :: rest =>
    if b = stopByte then ([Action.closedSubscription], LoopExit.stopped)
    else loopRun step frs rest

def computingRun : List Fresh → List Event → List Action × LoopExit :=
  loopRun computingChange

def motionRun : List Fresh → List Event → List Action × LoopExit :=
  loopRun motionChange

/-! Character-level facts about the hex digits of the formatted header. -/

theorem hexDigitChar_facts (d : Nat) (h : d < 16) :
    hexDigitVal (hexDigitChar d) = some d ∧
      isAsciiUppercase (hexDigitChar d) = false ∧
      hexDigitChar d ≠ '-' ∧ hexDigitChar d ≠ '+' ∧
      (hexDigitChar d).isWhitespace = false ∧
      hexDigitChar d ≠ '\"' ∧ hexDigitChar d ≠ '\\' := by
  interval_cases d <;> exact ⟨rfl, rfl, by decide, by decide, rfl, by decide, by decide⟩

theorem decDigitChar_facts (d : Nat) (h : d < 10) :
    ('0' ≤ hexDigitChar d ∧ hexDigitChar d ≤ '9') ∧
      (hexDigitChar d).toNat - 48 = d := by
  interval_cases d <;> exact ⟨by decide, rfl⟩

theorem parseHexCore_append (a b : RStr) (acc : Nat) :
    parseHexCore (a ++ b) acc =
      match parseHexCore a acc with
      | some v => parseHexCore b v
      | none => none := by
  induction a generalizing acc with
  | nil => rfl
  | cons c rest ih =>
    simp only [List.cons_append, parseHexCore]
    cases hexDigitVal c with
    | none => rfl
    | some v => exact ih _

theorem toHexFixed_length (w n : Nat) : (toHexFixed w n).length = w := by
  induction w generalizing n with
  | zero => rfl
  | succ w ih => simp [toHexFixed, ih]

theorem toHexFixed_mem (w n : Nat) (c : Char) (hc : c ∈ toHexFixed w n) :
    ∃ d, d < 16 ∧ c = hexDigitChar d := by
  induction w generalizing n with
  | zero => cases hc
  | succ w ih =>
    simp only [toHexFixed, List.mem_append, List.mem_singleton] at hc
    rcases hc with h | h
    · exact ih _ h
    · exact ⟨n % 16, Nat.mod_lt _ (by decide), h⟩

theorem parseHexCore_toHexFixed (w n acc : Nat) :
    parseHexCore (toHexFixed w n) acc = some (acc * 16 ^ w + n % 16 ^ w) := by
  induction w generalizing n acc with
  | zero => simp [toHexFixed, parseHexCore, Nat.mod_one]
  | succ w ih =>
    rw [toHexFixed, parseHexCore_append, ih]
    simp only [parseHexCore, (hexDigitChar_facts (n % 16) (Nat.mod_lt _ (by decide))).1]
    have hmul : n % (16 * 16 ^ w) = n % 16 + 16 * (n / 16 % 16 ^ w) := Nat.mod_mul
    have hpow : (16 : Nat) ^ (w + 1) = 16 ^ w * 16 := pow_succ 16 w
    rw [hpow]
    rw [show (16 : Nat) ^ w * 16 = 16 * 16 ^ w from Nat.mul_comm _ _, hmul]
    ring_nf

theorem stripPlus_of_not_mem (l : RStr) (h : '+' ∉ l) : stripPlus l = l := by
  cases l with
  | nil => rfl
  | cons c rest =>
    have hc : ¬c = '+' := by
      intro hc
      subst hc
      exact h (List.mem_cons_self _ _)
    simp [stripPlus, hc]

theorem toHexFixed_no_plus (w n : Nat) : '+' ∉ toHexFixed w n := by
  intro h
  obtain ⟨d, hd, he⟩ := toHexFixed_mem w n _ h
  exact (hexDigitChar_facts d hd).2.2.2.1 he.symm

theorem fromStrRadix16_toHexFixed (w n bound : Nat) (hw : w ≠ 0)
    (hn : n < 16 ^ w) (hb : n < bound) :
    fromStrRadix16 (toHexFixed w n) bound = some n := by
  have hne : toHexFixed w n ≠ [] := by
    intro h
    have := toHexFixed_length w n
    rw [h] at this
    exact hw this.symm
  simp only [fromStrRadix16, stripPlus_of_not_mem _ (toHexFixed_no_plus w n),
    if_neg hne, parseHexCore_toHexFixed, Nat.zero_mul, Nat.zero_add,
    Nat.mod_eq_of_lt hn, if_pos hb]

theorem toHexFixed_no_uppercase (w n : Nat) :
    (toHexFixed w n).any isAsciiUppercase = false := by
  rw [List.any_eq_false]
  intro c hc
  obtain ⟨d, hd, he⟩ := toHexFixed_mem w n c hc
  subst he
  simp [(hexDigitChar_facts d hd).2.1]

/-! Splitting and trimming the formatted header. -/

theorem splitCh_no_sep (sep : Char) (l : RStr) (h : sep ∉ l) :
    splitCh sep l = [l] := by
  induction l with
  | nil => rfl
  | cons c rest ih =>
    have hc : c ≠ sep := fun hc => h (hc ▸ List.mem_cons_self c rest)
    have hr : sep ∉ rest := fun hr => h (List.mem_cons_of_mem c hr)
    simp [splitCh, ih hr, if_neg hc]

theorem splitCh_ne_nil (sep : Char) (l : RStr) : splitCh sep l ≠ [] := by
  cases l with
  | nil => simp [splitCh]
  | cons c rest =>
    simp only [splitCh]
    cases h : splitCh sep rest with
    | nil => simp
    | cons hh tt => by_cases hc : c = sep <;> simp [hc]

theorem splitCh_append (sep : Char) (a r : RStr) (h : sep ∉ a) :
    splitCh sep (a ++ sep :: r) = a :: splitCh sep r := by
  induction a with
  | nil =>
    simp only [List.nil_append, splitCh]
    cases hr : splitCh sep r with
    | nil => exact absurd hr (splitCh_ne_nil sep r)
    | cons hh tt => simp
  | cons c rest ih =>
    have hc : ¬c = sep := by
      intro hc
      subst hc
      exact h (List.mem_cons_self _ _)
    have hr : sep ∉ rest := fun hm => h (List.mem_cons_of_mem c hm)
    rw [List.cons_append]
    simp only [splitCh]
    rw [ih hr]
    simp [hc]

theorem dropWhile_of_none (p : Char → Bool) (l : RStr)
    (h : ∀ c ∈ l, p c = false) : List.dropWhile p l = l := by
  cases l with
  | nil => rfl
  | cons c rest =>
    rw [List.dropWhile_cons, h c (List.mem_cons_self c rest)]
    simp

theorem rustTrim_of_no_ws (l : RStr) (h : ∀ c ∈ l, c.isWhitespace = false) :
    rustTrim l = l := by
  have h2 : ∀ c ∈ l.reverse, c.isWhitespace = false := by
    intro c hc
    exact h c (List.mem_reverse.mp hc)
  rw [rustTrim, dropWhile_of_none _ _ h, dropWhile_of_none _ _ h2,
    List.reverse_reverse]

theorem traceparentValue_mem (sc : SpanContext) (c : Char)
    (hc : c ∈ traceparentValue sc) :
    c = '-' ∨ ∃ d, d < 16 ∧ c = hexDigitChar d := by
  have hx : ∀ w n, c ∈ toHexFixed w n →
      c = '-' ∨ ∃ d, d < 16 ∧ c = hexDigitChar d :=
    fun w n h => Or.inr (toHexFixed_mem w n c h)
  rw [traceparentValue] at hc
  simp only [List.append_assoc, List.cons_append, List.mem_append,
    List.mem_cons] at hc
  rcases hc with h | h | h | h | h | h | h
  · exact hx _ _ h
  · exact Or.inl h
  · exact hx _ _ h
  · exact Or.inl h
  · exact hx _ _ h
  · exact Or.inl h
  · exact hx _ _ h

theorem traceparentValue_no_ws (sc : SpanContext) :
    ∀ c ∈ traceparentValue sc, c.isWhitespace = false := by
  intro c hc
  rcases traceparentValue_mem sc c hc with h | ⟨d, hd, he⟩
  · subst h; rfl
  · subst he; exact (hexDigitChar_facts d hd).2.2.2.2.1

theorem traceparentValue_json_safe (sc : SpanContext) :
    ∀ c ∈ traceparentValue sc, c ≠ '\"' ∧ c ≠ '\\' := by
  intro c hc
  rcases traceparentValue_mem sc c hc with h | ⟨d, hd, he⟩
  · subst h; exact ⟨by decide, by decide⟩
  · subst he
    exact ⟨(hexDigitChar_facts d hd).2.2.2.2.2.1,
      (hexDigitChar_facts d hd).2.2.2.2.2.2⟩

theorem splitTerminator_traceparentValue (sc : SpanContext) :
    splitTerminatorCh '-' (traceparentValue sc) =
      [toHexFixed 2 0, toHexFixed 32 sc.traceId, toHexFixed 16 sc.spanId,
        toHexFixed 2 (sc.traceFlags &&& 1)] := by
  have nosep : ∀ w n, '-' ∉ toHexFixed w n := by
    intro w n h
    obtain ⟨d, hd, he⟩ := toHexFixed_mem w n _ h
    exact (hexDigitChar_facts d hd).2.2.1 he.symm
  have hsplit : splitCh '-' (traceparentValue sc) =
      [toHexFixed 2 0, toHexFixed 32 sc.traceId, toHexFixed 16 sc.spanId,
        toHexFixed 2 (sc.traceFlags &&& 1)] := by
    rw [traceparentValue]
    simp only [List.append_assoc, List.cons_append]
    rw [splitCh_append _ _ _ (nosep 2 0), splitCh_append _ _ _ (nosep 32 _),
      splitCh_append _ _ _ (nosep 16 _), splitCh_no_sep _ _ (nosep 2 _)]
  have hne : toHexFixed 2 (sc.traceFlags &&& 1) ≠ [] := by
    intro h
    have := toHexFixed_length 2 (sc.traceFlags &&& 1)
    rw [h] at this
    cases this
  have hcond : ¬(([toHexFixed 2 0, toHexFixed 32 sc.traceId,
      toHexFixed 16 sc.spanId, toHexFixed 2 (sc.traceFlags &&& 1)] :
        List RStr).getLast? = some []) := by
    intro hcontra
    rw [show ([toHexFixed 2 0, toHexFixed 32 sc.traceId,
        toHexFixed 16 sc.spanId, toHexFixed 2 (sc.traceFlags &&& 1)] :
          List RStr).getLast? =
        some (toHexFixed 2 (sc.traceFlags &&& 1)) from rfl] at hcontra
    exact hne (Option.some.inj hcontra)
  simp only [splitTerminatorCh, hsplit]
  rw [if_neg hcond]

/-- Core codec fact: extracting a map whose traceparent entry is the
formatted context of a valid, width-bounded span context recovers that
context's ids with the sampled bit of its flags, marked remote. -/
theorem extract_of_traceparent (m : StrMap) (sc : SpanContext)
    (hget : strMapGet m traceparentKey = some (traceparentValue sc))
    (hv : scIsValid sc = true) (ht : sc.traceId < 2 ^ 128)
    (hs : sc.spanId < 2 ^ 64) :
    extractSpanContext m =
      some ⟨sc.traceId, sc.spanId, sc.traceFlags &&& 1, true⟩ := by
  have hflag : sc.traceFlags &&& 1 < 2 := by
    rw [Nat.and_one_is_mod]
    exact Nat.mod_lt _ (by decide)
  have h128 : (16 : Nat) ^ 32 = 2 ^ 128 := by norm_num
  have h64 : (16 : Nat) ^ 16 = 2 ^ 64 := by norm_num
  have hvv : sc.traceId ≠ 0 ∧ sc.spanId ≠ 0 := by
    simpa [scIsValid] using hv
  have hver : fromStrRadix16 (toHexFixed 2 0) 256 = some 0 := by decide
  have htid : fromStrRadix16 (toHexFixed 32 sc.traceId) (2 ^ 128) =
      some sc.traceId :=
    fromStrRadix16_toHexFixed 32 _ _ (by decide) (h128 ▸ ht) ht
  have hsid : fromStrRadix16 (toHexFixed 16 sc.spanId) (2 ^ 64) =
      some sc.spanId :=
    fromStrRadix16_toHexFixed 16 _ _ (by decide) (h64 ▸ hs) hs
  have hopts : fromStrRadix16 (toHexFixed 2 (sc.traceFlags &&& 1)) 256 =
      some (sc.traceFlags &&& 1) :=
    fromStrRadix16_toHexFixed 2 _ _ (by decide)
      (lt_of_lt_of_le hflag (by norm_num)) (lt_of_lt_of_le hflag (by norm_num))
  have hand : sc.traceFlags &&& 1 &&& 1 = sc.traceFlags &&& 1 := by
    rw [Nat.and_one_is_mod, Nat.and_one_is_mod]
    omega
  rw [extractSpanContext, hget]
  simp only [Option.getD_some]
  rw [rustTrim_of_no_ws _ (traceparentValue_no_ws sc),
    splitTerminator_traceparentValue]
  have hno32 := toHexFixed_no_uppercase 32 sc.traceId
  have hno16 := toHexFixed_no_uppercase 16 sc.spanId
  have hopts2 : ¬(True ∧ sc.traceFlags &&& 1 > 2) := by
    intro hcontra
    omega
  have hvalid : scIsValid ⟨sc.traceId, sc.spanId, sc.traceFlags &&& 1, true⟩ =
      true := by
    simp [scIsValid, hvv.1, hvv.2]
  simp only [extractParts, hver]
  rw [if_neg (by simp [maxVersion]), if_neg (by rw [hno32]; simp),
    if_neg (by rw [hno16]; simp)]
  simp only [hopts, htid, hsid, Option.getD_some, hand]
  rw [if_neg hopts2, if_pos hvalid]

/-! The serde round trip for the canonical Message encoding. -/

theorem stripLit_append (p s : RStr) : stripLit p (p ++ s) = some s := by
  induction p with
  | nil => rfl
  | cons c rest ih => simp [stripLit, ih]

theorem parseDigitsCore_digits (l r : RStr) (acc : Nat)
    (h : ∀ c ∈ l, '0' ≤ c ∧ c ≤ '9') :
    parseDigitsCore (l ++ r) acc =
      parseDigitsCore r
        (l.foldl (fun a c => a * 10 + (c.toNat - 48)) acc) := by
  induction l generalizing acc with
  | nil => rfl
  | cons c rest ih =>
    rw [List.cons_append, parseDigitsCore,
      if_pos (h c (List.mem_cons_self _ _)), List.foldl_cons]
    exact ih _ (fun d hd => h d (List.mem_cons_of_mem c hd))

theorem decimalDigitsAux_irrel (n : Nat) : ∀ f1 f2, n ≤ f1 → n ≤ f2 →
    decimalDigitsAux f1 n = decimalDigitsAux f2 n := by
  induction n using Nat.strong_induction_on with
  | _ n ih =>
    intro f1 f2 h1 h2
    cases n with
    | zero => cases f1 <;> cases f2 <;> rfl
    | succ m =>
      cases f1 with
      | zero => omega
      | succ g1 =>
        cases f2 with
        | zero => omega
        | succ g2 =>
          simp only [decimalDigitsAux]
          rw [ih ((m + 1) / 10) (by omega) g1 g2 (by omega) (by omega)]

theorem decimalDigits_unfold (n : Nat) :
    decimalDigits n =
      if n = 0 then []
      else decimalDigits (n / 10) ++ [hexDigitChar (n % 10)] := by
  cases n with
  | zero => rfl
  | succ m =>
    rw [if_neg (Nat.succ_ne_zero m)]
    show decimalDigitsAux (m + 1) (m + 1) = _
    simp only [decimalDigitsAux]
    rw [decimalDigitsAux_irrel ((m + 1) / 10) m ((m + 1) / 10) (by omega)
      (le_refl _)]
    rfl

theorem decimalDigits_digits (n : Nat) :
    ∀ c ∈ decimalDigits n, '0' ≤ c ∧ c ≤ '9' := by
  induction n using Nat.strong_induction_on with
  | _ n ih =>
    intro c hc
    rw [decimalDigits_unfold] at hc
    by_cases h : n = 0
    · rw [if_pos h] at hc
      cases hc
    · rw [if_neg h] at hc
      rcases List.mem_append.mp hc with hm | hm
      · exact ih (n / 10) (Nat.div_lt_self (Nat.pos_of_ne_zero h) (by decide))
          c hm
      · rw [List.mem_singleton] at hm
        subst hm
        exact (decDigitChar_facts (n % 10) (Nat.mod_lt _ (by decide))).1

theorem decimalDigits_foldl (n : Nat) : ∀ acc,
    (decimalDigits n).foldl (fun a c => a * 10 + (c.toNat - 48)) acc =
      acc * 10 ^ (decimalDigits n).length + n := by
  induction n using Nat.strong_induction_on with
  | _ n ih =>
    intro acc
    by_cases h : n = 0
    · subst h
      simp [decimalDigits, decimalDigitsAux]
    · rw [decimalDigits_unfold, if_neg h, List.foldl_append,
        ih (n / 10) (Nat.div_lt_self (Nat.pos_of_ne_zero h) (by decide)) acc,
        List.foldl_cons, List.foldl_nil,
        (decDigitChar_facts (n % 10) (Nat.mod_lt _ (by decide))).2,
        List.length_append, List.length_singleton, pow_succ]
      have : n / 10 * 10 + n % 10 = n := by omega
      ring_nf
      omega

theorem decimalDigits_ne_nil (n : Nat) (h : n ≠ 0) : decimalDigits n ≠ [] := by
  rw [decimalDigits_unfold, if_neg h]
  simp

theorem parseDigitsCore_stop (r : RStr) (acc : Nat)
    (h : match r with
      | [] => True
      | c :: _ => ¬('0' ≤ c ∧ c ≤ '9')) :
    parseDigitsCore r acc = (acc, r) := by
  cases r with
  | nil => rfl
  | cons c rest => rw [parseDigitsCore, if_neg h]

theorem natToDecimal_parse (n : Nat) (r : RStr)
    (hr : match r with
      | [] => True
      | c :: _ => ¬('0' ≤ c ∧ c ≤ '9')) :
    parseDigits (natToDecimal n ++ r) = some (n, r) := by
  by_cases h : n = 0
  · subst h
    rw [natToDecimal, if_pos rfl]
    rw [show (['0'] ++ r : RStr) = '0' :: r from rfl, parseDigits,
      if_pos (by decide)]
    rw [show parseDigitsCore ('0' :: r) 0 =
      parseDigitsCore r (0 * 10 + ('0'.toNat - 48)) from by
        rw [parseDigitsCore, if_pos (by decide)]]
    rw [parseDigitsCore_stop r _ hr]
    rfl
  · rw [natToDecimal, if_neg h]
    have hds := decimalDigits_digits n
    cases hd : decimalDigits n with
    | nil => exact absurd hd (decimalDigits_ne_nil n h)
    | cons c cs =>
      have hc : '0' ≤ c ∧ c ≤ '9' := by
        apply hds
        rw [hd]
        exact List.mem_cons_self _ _
      rw [show ((c :: cs) ++ r : RStr) = c :: (cs ++ r) from rfl, parseDigits,
        if_pos hc]
      rw [show (c :: (cs ++ r) : RStr) = (c :: cs) ++ r from rfl, ← hd]
      rw [parseDigitsCore_digits _ _ _ hds, parseDigitsCore_stop r _ hr]
      rw [decimalDigits_foldl n 0]
      simp

theorem parseStringBody_append (ctx r : RStr)
    (h : ∀ c ∈ ctx, c ≠ '\"' ∧ c ≠ '\\') :
    parseStringBody (ctx ++ '\"' :: r) = some (ctx, r) := by
  induction ctx with
  | nil => simp [parseStringBody]
  | cons c rest ih =>
    have hc := h c (List.mem_cons_self _ _)
    rw [List.cons_append, parseStringBody, if_neg hc.1, if_neg hc.2,
      ih (fun d hd => h d (List.mem_cons_of_mem c hd))]

/-- Round trip of the Message codec for payloads whose span_context needs no
JSON escaping (every formatted traceparent value qualifies). -/
theorem deserialize_serialize (m : Message)
    (hctx : ∀ c ∈ m.span_context, c ≠ '\"' ∧ c ≠ '\\')
    (hn : m.sleep_time < 2 ^ 64) :
    deserializeMessage (serializeMessage m) = some m := by
  rw [serializeMessage, deserializeMessage]
  rw [show ("\x7b\"sleep_time\":".data ++ natToDecimal m.sleep_time ++
      ",\"span_context\":\"".data ++ m.span_context ++ "\"\x7d".data : RStr) =
      "\x7b\"sleep_time\":".data ++ (natToDecimal m.sleep_time ++
        (",\"span_context\":\"".data ++ (m.span_context ++ "\"\x7d".data)))
    from by simp [List.append_assoc]]
  simp only [stripLit_append]
  rw [show (",\"span_context\":\"".data ++ (m.span_context ++
      "\"\x7d".data) : RStr) =
      ',' :: ("\"span_context\":\"".data ++ (m.span_context ++ "\"\x7d".data))
    from rfl]
  simp only [natToDecimal_parse m.sleep_time
    (',' :: ("\"span_context\":\"".data ++ (m.span_context ++ "\"\x7d".data)))
    (show ¬('0' ≤ ',' ∧ ',' ≤ '9') by decide), if_pos hn]
  rw [show (',' :: ("\"span_context\":\"".data ++ (m.span_context ++
      "\"\x7d".data)) : RStr) =
      ",\"span_context\":\"".data ++ (m.span_context ++ "\"\x7d".data)
    from rfl]
  simp only [stripLit_append]
  rw [show (m.span_context ++ "\"\x7d".data : RStr) =
      m.span_context ++ '\"' :: ['\x7d'] from rfl]
  simp only [parseStringBody_append _ _ hctx]
  simp [stripLit]

/-! Stage-level helper lemmas. -/

theorem strMap_keys_ne : traceparentKey ≠ tracestateKey := by decide

theorem extractParts_valid (l : List RStr) (sc : SpanContext)
    (h : extractParts l = some sc) : scIsValid sc = true := by
  cases l with
  | nil => simp [extractParts] at h
  | cons v t1 =>
  cases t1 with
  | nil => simp [extractParts] at h
  | cons t t2 =>
  cases t2 with
  | nil => simp [extractParts] at h
  | cons s t3 =>
  cases t3 with
  | nil => simp [extractParts] at h
  | cons o t4 =>
  simp only [extractParts] at h
  split at h <;> try cases h
  all_goals try (split at h <;> try cases h)
  all_goals try (split at h <;> try cases h)
  all_goals try (split at h <;> try cases h)
  all_goals try (split at h <;> try cases h)
  all_goals try (split at h <;> try cases h)
  all_goals try (split at h <;> try cases h)
  all_goals assumption

theorem extractContext_valid (m : StrMap) (sc : SpanContext)
    (h : extractContext m = some sc) : scIsValid sc = true :=
  extractParts_valid _ _ h

/-- Injecting a valid context overwrites the traceparent entry of the
one-entry header map built from an inbound message. -/
theorem strMapGet_inject_single (sc : SpanContext) (hval : scIsValid sc = true)
    (x : RStr) :
    strMapGet (injectContext (some sc) (strMapInsert [] traceparentKey x))
      traceparentKey = some (traceparentValue sc) := by
  simp [injectContext, hval, strMapInsert, strMapGet, if_neg strMap_keys_ne]

/-- Injecting a valid context into an empty map makes the traceparent entry
retrievable (the sensor's HashMap index succeeds). -/
theorem strMapGet_inject_empty (sc : SpanContext)
    (hval : scIsValid sc = true) :
    strMapGet (injectContext (some sc) []) traceparentKey =
      some (traceparentValue sc) := by
  simp [injectContext, hval, strMapInsert, strMapGet, if_neg strMap_keys_ne]

def computingSpanName : RStr := "Get sensor data and start computing".data
def motionSpanName : RStr := "Get computing output and start motion".data
def sensorSpanName : RStr := "generate sensor data".data

/-- Computing's change branch on a decodable payload whose embedded context
extracts to a valid parent: the child span adopts the parent's trace id and
span id, and the outgoing envelope carries the child's own formatted
context. -/
theorem computingChange_child (fr : Fresh) (v : RStr) (m : Message)
    (psc : SpanContext) (hdes : deserializeMessage v = some m)
    (hext : extractContext (strMapInsert [] traceparentKey m.span_context) =
      some psc)
    (hsid : fr.spanId ≠ 0) :
    computingChange fr ⟨some (ZValue.stringUtf8 v)⟩ =
      ChangeRes.processed
        [Action.printedMessage m,
         Action.spanStarted ⟨computingSpanName, computingAttrs, psc.traceId,
           fr.spanId, psc.spanId, psc.traceFlags &&& 1⟩,
         Action.slept m.sleep_time,
         Action.published actionTopic (serializeMessage ⟨fr.outSleep,
           traceparentValue ⟨psc.traceId, fr.spanId, psc.traceFlags &&& 1,
             false⟩⟩),
         Action.spanEnded ⟨computingSpanName, computingAttrs, psc.traceId,
           fr.spanId, psc.spanId, psc.traceFlags &&& 1⟩] := by
  have hpv : scIsValid psc = true := extractContext_valid _ _ hext
  have htid0 : psc.traceId ≠ 0 := by
    have := hpv
    simp [scIsValid] at this
    exact this.1
  have hval2 : scIsValid ⟨psc.traceId, fr.spanId, psc.traceFlags &&& 1,
      false⟩ = true := by
    simp [scIsValid, htid0, hsid]
  simp only [computingChange, hdes, hext, startSpan, hpv, if_true,
    spanContextOf,
    strMapGet_inject_single _ hval2 m.span_context, computingSpanName]

/-- Computing's change branch on a decodable payload whose embedded context
fails extraction: the stage continues, starting its span as a new root from
the id generator's fresh ids. -/
theorem computingChange_root (fr : Fresh) (v : RStr) (m : Message)
    (hdes : deserializeMessage v = some m)
    (hext : extractContext (strMapInsert [] traceparentKey m.span_context) =
      none)
    (htid : fr.traceId ≠ 0) (hsid : fr.spanId ≠ 0) :
    computingChange fr ⟨some (ZValue.stringUtf8 v)⟩ =
      ChangeRes.processed
        [Action.printedMessage m,
         Action.spanStarted ⟨computingSpanName, computingAttrs, fr.traceId,
           fr.spanId, 0, 1⟩,
         Action.slept m.sleep_time,
         Action.published actionTopic (serializeMessage ⟨fr.outSleep,
           traceparentValue ⟨fr.traceId, fr.spanId, 1, false⟩⟩),
         Action.spanEnded ⟨computingSpanName, computingAttrs, fr.traceId,
           fr.spanId, 0, 1⟩] := by
  have hval2 : scIsValid ⟨fr.traceId, fr.spanId, 1, false⟩ = true := by
    simp [scIsValid, htid, hsid]
  simp only [computingChange, hdes, hext, startSpan, spanContextOf,
    strMapGet_inject_single _ hval2 m.span_context, computingSpanName]

/-- Motion's change branch with a valid extracted parent. -/
theorem motionChange_child (fr : Fresh) (v : RStr) (m : Message)
    (psc : SpanContext) (hdes : deserializeMessage v = some m)
    (hext : extractContext (strMapInsert [] traceparentKey m.span_context) =
      some psc) :
    motionChange fr ⟨some (ZValue.stringUtf8 v)⟩ =
      ChangeRes.processed
        [Action.printedMessage m,
         Action.spanStarted ⟨motionSpanName, motionAttrs, psc.traceId,
           fr.spanId, psc.spanId, psc.traceFlags &&& 1⟩,
         Action.slept m.sleep_time,
         Action.spanEnded ⟨motionSpanName, motionAttrs, psc.traceId,
           fr.spanId, psc.spanId, psc.traceFlags &&& 1⟩] := by
  have hpv : scIsValid psc = true := extractContext_valid _ _ hext
  simp only [motionChange, hdes, hext, startSpan, hpv, if_true,
    motionSpanName]

/-- Motion's change branch with a failed extraction: a root leaf span. -/
theorem motionChange_root (fr : Fresh) (v : RStr) (m : Message)
    (hdes : deserializeMessage v = some m)
    (hext : extractContext (strMapInsert [] traceparentKey m.span_context) =
      none) :
    motionChange fr ⟨some (ZValue.stringUtf8 v)⟩ =
      ChangeRes.processed
        [Action.printedMessage m,
         Action.spanStarted ⟨motionSpanName, motionAttrs, fr.traceId,
           fr.spanId, 0, 1⟩,
         Action.slept m.sleep_time,
         Action.spanEnded ⟨motionSpanName, motionAttrs, fr.traceId,
           fr.spanId, 0, 1⟩] := by
  simp only [motionChange, hdes, hext, startSpan, motionSpanName]

/-- The sensor role with valid fresh ids: one root span, one publish of the
canonical serialization of the envelope carrying the root span's formatted
context. -/
theorem sensorRun_eq (t s acq out : Nat) (ht0 : t ≠ 0) (hs0 : s ≠ 0) :
    sensorRun t s acq out =
      some [Action.spanStarted ⟨sensorSpanName, sensorAttrs, t, s, 0, 1⟩,
        Action.slept acq,
        Action.addedEvent "sensor data".data
          [("sleeping time".data, natToDecimal out),
           ("span context".data, traceparentValue ⟨t, s, 1, false⟩)],
        Action.published sensorTopic
          (serializeMessage ⟨out, traceparentValue ⟨t, s, 1, false⟩⟩),
        Action.spanEnded ⟨sensorSpanName, sensorAttrs, t, s, 0, 1⟩] := by
  have hval : scIsValid ⟨t, s, 1, false⟩ = true := by
    simp [scIsValid, ht0, hs0]
  simp only [sensorRun, startSpan, spanContextOf,
    strMapGet_inject_empty _ hval, sensorSpanName]

/-! Loop unfolding lemmas. -/

theorem loopRun_cons_processed (step : Fresh → Change → ChangeRes)
    (fr : Fresh) (frs : List Fresh) (c : Change) (rest : List Event)
    (acts : List Action) (h : step fr c = ChangeRes.processed acts) :
    loopRun step (fr :: frs) (Event.change c :: rest) =
      (acts ++ (loopRun step frs rest).1, (loopRun step frs rest).2) := by
  simp [loopRun, h]

theorem loopRun_cons_skipped (step : Fresh → Change → ChangeRes)
    (frs : List Fresh) (c : Change) (rest : List Event)
    (h : step (frs.headD ⟨0, 0, 0⟩) c = ChangeRes.skipped) :
    loopRun step frs (Event.change c :: rest) = loopRun step frs rest := by
  simp only [loopRun]
  rw [h]

theorem loopRun_cons_panicked (step : Fresh → Change → ChangeRes)
    (frs : List Fresh) (c : Change) (rest : List Event)
    (h : step (frs.headD ⟨0, 0, 0⟩) c = ChangeRes.panicked) :
    loopRun step frs (Event.change c :: rest) = ([], LoopExit.panicked) := by
  simp only [loopRun]
  rw [h]

theorem loopRun_stdin_stop (step : Fresh → Change → ChangeRes)
    (frs : List Fresh) (rest : List Event) :
    loopRun step frs (Event.stdinByte stopByte :: rest) =
      ([Action.closedSubscription], LoopExit.stopped) := by
  simp [loopRun]

theorem loopRun_stdin_other (step : Fresh → Change → ChangeRes)
    (frs : List Fresh) (rest : List Event) (b : Nat) (h : b ≠ stopByte) :
    loopRun step frs (Event.stdinByte b :: rest) = loopRun step frs rest := by
  simp [loopRun, h]

theorem strMapGet_insert_self (k v : RStr) :
    strMapGet (strMapInsert [] k v) k = some v := by
  simp [strMapInsert, strMapGet]

theorem startSpan_attributes (n : RStr) (a : List (RStr × RStr))
    (p : TraceCx) (t s : Nat) : (startSpan n a p t s).attributes = a := by
  cases p with
  | none => rfl
  | some psc => by_cases h : scIsValid psc <;> simp [startSpan, h]

/-- Inversion: a processed computing iteration always has the five-action
shape print / span start / sleep of the inbound sleep_time / publish to
action / span end, with the span carrying the transformer attribute set. -/
theorem computingChange_processed_inv (fr : Fresh) (c : Change)
    (acts : List Action) (h : computingChange fr c = ChangeRes.processed acts) :
    ∃ m sp pl, acts =
      [Action.printedMessage m, Action.spanStarted sp,
       Action.slept m.sleep_time, Action.published actionTopic pl,
       Action.spanEnded sp] ∧ sp.attributes = computingAttrs := by
  cases c with
  | mk val =>
  cases val with
  | none => simp [computingChange] at h
  | some zv =>
    cases zv with
    | nonStringValue => simp [computingChange] at h
    | stringUtf8 v =>
      cases hdes : deserializeMessage v with
      | none => simp [computingChange, hdes] at h
      | some m =>
        simp only [computingChange, hdes] at h
        split at h
        · cases h
        · cases h
          exact ⟨m, _, _, rfl, startSpan_attributes _ _ _ _ _⟩

/-- Inversion: a processed motion iteration has the four-action shape print /
span start / sleep of the inbound sleep_time / span end, publishing nothing,
with the span carrying the consumer attribute set. -/
theorem motionChange_processed_inv (fr : Fresh) (c : Change)
    (acts : List Action) (h : motionChange fr c = ChangeRes.processed acts) :
    ∃ m sp, acts =
      [Action.printedMessage m, Action.spanStarted sp,
       Action.slept m.sleep_time, Action.spanEnded sp] ∧
      sp.attributes = motionAttrs := by
  cases c with
  | mk val =>
  cases val with
  | none => simp [motionChange] at h
  | some zv =>
    cases zv with
    | nonStringValue => simp [motionChange] at h
    | stringUtf8 v =>
      cases hdes : deserializeMessage v with
      | none => simp [motionChange, hdes] at h
      | some m =>
        simp only [motionChange, hdes] at h
        cases h
        exact ⟨m, _, rfl, startSpan_attributes _ _ _ _ _⟩

/-- Inversion: a successful sensor run has the five-action shape span start /
acquisition sleep / event / publish to sensor_data / span end, with the span
carrying the producer attribute set. -/
theorem sensorRun_inv (t s a o : Nat) (acts : List Action)
    (h : sensorRun t s a o = some acts) :
    ∃ sp en ea pl, acts =
      [Action.spanStarted sp, Action.slept a, Action.addedEvent en ea,
       Action.published sensorTopic pl, Action.spanEnded sp] ∧
      sp.attributes = sensorAttrs := by
  simp only [sensorRun] at h
  split at h
  · cases h
  · cases h
    exact ⟨_, _, _, _, rfl, startSpan_attributes _ _ _ _ _⟩

/-! Claim theorems. -/

/-- C1 counterexample: the payload "hello" is a UTF-8 string that is not a
decodable Envelope, yet the transformer does not skip it and keep running —
its serde unwrap panics and the loop is not left running. -/
theorem malformed_payload_skip_counterexample :
    deserializeMessage "hello".data = none ∧
    computingRun [⟨1, 1, 0⟩]
      [Event.change ⟨some (ZValue.stringUtf8 "hello".data)⟩] =
      ([], LoopExit.panicked) ∧
    LoopExit.panicked ≠ LoopExit.running :=
  ⟨by decide, by decide, by decide⟩

/-- C1 (amended): a UTF-8 string payload that does not decode as an Envelope
is not skipped: the serde_json unwrap panics in both the transformer and the
consumer, aborting the stage; the loop emits nothing and processes no
further events. -/
theorem malformed_payload_panics (fr : Fresh) (frs : List Fresh) (v : RStr)
    (rest : List Event) (h : deserializeMessage v = none) :
    computingChange fr ⟨some (ZValue.stringUtf8 v)⟩ = ChangeRes.panicked ∧
    motionChange fr ⟨some (ZValue.stringUtf8 v)⟩ = ChangeRes.panicked ∧
    computingRun frs (Event.change ⟨some (ZValue.stringUtf8 v)⟩ :: rest) =
      ([], LoopExit.panicked) ∧
    motionRun frs (Event.change ⟨some (ZValue.stringUtf8 v)⟩ :: rest) =
      ([], LoopExit.panicked) := by
  have hc : ∀ g : Fresh,
      computingChange g ⟨some (ZValue.stringUtf8 v)⟩ = ChangeRes.panicked :=
    fun g => by simp [computingChange, h]
  have hm : ∀ g : Fresh,
      motionChange g ⟨some (ZValue.stringUtf8 v)⟩ = ChangeRes.panicked :=
    fun g => by simp [motionChange, h]
  exact ⟨hc fr, hm fr, loopRun_cons_panicked _ _ _ _ (hc _),
    loopRun_cons_panicked _ _ _ _ (hm _)⟩

/-- C1 witness: the amended claim evaluated at the payload "hello". -/
theorem malformed_payload_panics_witness :
    computingChange ⟨1, 1, 0⟩ ⟨some (ZValue.stringUtf8 "hello".data)⟩ =
      ChangeRes.panicked ∧
    motionChange ⟨1, 1, 0⟩ ⟨some (ZValue.stringUtf8 "hello".data)⟩ =
      ChangeRes.panicked ∧
    computingRun [] (Event.change ⟨some (ZValue.stringUtf8 "hello".data)⟩ ::
      []) = ([], LoopExit.panicked) ∧
    motionRun [] (Event.change ⟨some (ZValue.stringUtf8 "hello".data)⟩ ::
      []) = ([], LoopExit.panicked) :=
  malformed_payload_panics ⟨1, 1, 0⟩ [] "hello".data [] (by decide)

/-- C3: context extraction returns the detached handle when the traceparent
key is absent, empty, or not W3C-valid — it never fails — and a receiving
stage whose extraction came back detached starts its span as a new root
(parent span id zero, fresh trace id) and keeps processing. -/
theorem extract_detached_on_missing_or_invalid :
    (∀ m : StrMap, strMapGet m traceparentKey = none →
      extractContext m = none) ∧
    extractContext [] = none ∧
    extractContext
      (strMapInsert [] traceparentKey "not-a-valid-value".data) = none ∧
    extractContext (strMapInsert [] traceparentKey []) = none ∧
    (∀ (fr : Fresh) (v : RStr) (m : Message),
      deserializeMessage v = some m →
      extractContext (strMapInsert [] traceparentKey m.span_context) = none →
      fr.traceId ≠ 0 → fr.spanId ≠ 0 →
      computingChange fr ⟨some (ZValue.stringUtf8 v)⟩ =
        ChangeRes.processed
          [Action.printedMessage m,
           Action.spanStarted ⟨computingSpanName, computingAttrs, fr.traceId,
             fr.spanId, 0, 1⟩,
           Action.slept m.sleep_time,
           Action.published actionTopic (serializeMessage ⟨fr.outSleep,
             traceparentValue ⟨fr.traceId, fr.spanId, 1, false⟩⟩),
           Action.spanEnded ⟨computingSpanName, computingAttrs, fr.traceId,
             fr.spanId, 0, 1⟩] ∧
      motionChange fr ⟨some (ZValue.stringUtf8 v)⟩ =
        ChangeRes.processed
          [Action.printedMessage m,
           Action.spanStarted ⟨motionSpanName, motionAttrs, fr.traceId,
             fr.spanId, 0, 1⟩,
           Action.slept m.sleep_time,
           Action.spanEnded ⟨motionSpanName, motionAttrs, fr.traceId,
             fr.spanId, 0, 1⟩]) := by
  refine ⟨?_, by decide, by decide, by decide, ?_⟩
  · intro m hm
    simp [extractContext, extractSpanContext, hm, rustTrim,
      splitTerminatorCh, splitCh, extractParts]
  · intro fr v m hdes hext htid hsid
    exact ⟨computingChange_root fr v m hdes hext htid hsid,
      motionChange_root fr v m hdes hext⟩

/-- C3 witness: the detached-extraction claim evaluated at a concrete
envelope whose span_context is the undecodable string "bogus". -/
theorem extract_detached_on_missing_or_invalid_witness :
    extractContext [] = none ∧
    computingChange ⟨3, 4, 9⟩
      ⟨some (ZValue.stringUtf8 (serializeMessage ⟨7, "bogus".data⟩))⟩ =
      ChangeRes.processed
        [Action.printedMessage ⟨7, "bogus".data⟩,
         Action.spanStarted ⟨computingSpanName, computingAttrs, 3, 4, 0, 1⟩,
         Action.slept 7,
         Action.published actionTopic (serializeMessage ⟨9,
           traceparentValue ⟨3, 4, 1, false⟩⟩),
         Action.spanEnded ⟨computingSpanName, computingAttrs, 3, 4, 0, 1⟩] :=
  ⟨extract_detached_on_missing_or_invalid.2.1,
    (extract_detached_on_missing_or_invalid.2.2.2.2 ⟨3, 4, 9⟩
      (serializeMessage ⟨7, "bogus".data⟩) ⟨7, "bogus".data⟩
      (by decide) (by decide) (by decide) (by decide)).1⟩

/-- C4: for every valid span context (within its u128/u64 widths), injection
produces a mapping that contains the traceparent key, and extracting that
mapping yields a remote parent handle whose trace id equals the span's trace
id. -/
theorem codec_round_trip (sc : SpanContext) (hv : scIsValid sc = true)
    (ht : sc.traceId < 2 ^ 128) (hs : sc.spanId < 2 ^ 64) :
    (strMapGet (injectContext (some sc) []) traceparentKey).isSome = true ∧
    extractContext (injectContext (some sc) []) =
      some ⟨sc.traceId, sc.spanId, sc.traceFlags &&& 1, true⟩ := by
  constructor
  · rw [strMapGet_inject_empty sc hv]
    rfl
  · exact extract_of_traceparent _ _ (strMapGet_inject_empty sc hv) hv ht hs

/-- C4 witness: the codec round trip evaluated at a concrete span context. -/
theorem codec_round_trip_witness :
    (strMapGet (injectContext (some ⟨5, 6, 1, false⟩) [])
      traceparentKey).isSome = true ∧
    extractContext (injectContext (some ⟨5, 6, 1, false⟩) []) =
      some ⟨5, 6, 1, true⟩ :=
  codec_round_trip ⟨5, 6, 1, false⟩ (by decide) (by decide) (by decide)

/-- C8: in both subscribe loops, the stop sentinel byte exits the loop and
the subscription is then closed, while any other stdin byte is ignored and
the loop continues with the remaining events. -/
theorem stop_sentinel_exits_other_bytes_ignored (frs : List Fresh)
    (rest : List Event) (b : Nat) :
    (b = stopByte →
      computingRun frs (Event.stdinByte b :: rest) =
        ([Action.closedSubscription], LoopExit.stopped) ∧
      motionRun frs (Event.stdinByte b :: rest) =
        ([Action.closedSubscription], LoopExit.stopped)) ∧
    (b ≠ stopByte →
      computingRun frs (Event.stdinByte b :: rest) = computingRun frs rest ∧
      motionRun frs (Event.stdinByte b :: rest) = motionRun frs rest) := by
  constructor
  · intro hb
    subst hb
    exact ⟨loopRun_stdin_stop _ _ _, loopRun_stdin_stop _ _ _⟩
  · intro hb
    exact ⟨loopRun_stdin_other _ _ _ _ hb, loopRun_stdin_other _ _ _ _ hb⟩

/-- C8 witness: the sentinel byte 113 stops the computing loop and any other
byte (104) is ignored, evaluated at concrete event lists. -/
theorem stop_sentinel_exits_other_bytes_ignored_witness :
    (computingRun [] (Event.stdinByte 113 :: []) =
      ([Action.closedSubscription], LoopExit.stopped) ∧
     motionRun [] (Event.stdinByte 113 :: []) =
      ([Action.closedSubscription], LoopExit.stopped)) ∧
    (computingRun [] (Event.stdinByte 104 :: []) = computingRun [] [] ∧
     motionRun [] (Event.stdinByte 104 :: []) = motionRun [] []) :=
  ⟨(stop_sentinel_exits_other_bytes_ignored [] [] 113).1 rfl,
   (stop_sentinel_exits_other_bytes_ignored [] [] 104).2 (by decide)⟩

/-- C9: for every well-formed inbound envelope the transformer sleeps for
exactly the envelope's sleep_time — unclamped — with its span started before
the delay and ended only after the publish to the action topic. -/
theorem transformer_sleep_and_span_lifetime (fr : Fresh) (v : RStr)
    (m : Message) (hdes : deserializeMessage v = some m)
    (ht : fr.traceId ≠ 0) (hs : fr.spanId ≠ 0) :
    ∃ sp pl, computingChange fr ⟨some (ZValue.stringUtf8 v)⟩ =
      ChangeRes.processed
        [Action.printedMessage m, Action.spanStarted sp,
         Action.slept m.sleep_time, Action.published actionTopic pl,
         Action.spanEnded sp] := by
  cases hext : extractContext (strMapInsert [] traceparentKey m.span_context)
    with
  | none => exact ⟨_, _, computingChange_root fr v m hdes hext ht hs⟩
  | some psc => exact ⟨_, _, computingChange_child fr v m psc hdes hext hs⟩

/-- C9 witness: the sleep/lifetime claim evaluated at an envelope carrying
sleep_time 7. -/
theorem transformer_sleep_and_span_lifetime_witness :
    ∃ sp pl, computingChange ⟨1, 1, 0⟩
      ⟨some (ZValue.stringUtf8 (serializeMessage ⟨7, "xy".data⟩))⟩ =
      ChangeRes.processed
        [Action.printedMessage ⟨7, "xy".data⟩, Action.spanStarted sp,
         Action.slept 7, Action.published actionTopic pl,
         Action.spanEnded sp] :=
  transformer_sleep_and_span_lifetime ⟨1, 1, 0⟩
    (serializeMessage ⟨7, "xy".data⟩) ⟨7, "xy".data⟩
    (by decide) (by decide) (by decide)

/-- C10: a change event whose payload value is present but is not the
StringUtf8 variant is silently skipped by both the transformer and the
consumer: no action at all, and the loop goes on with the next event. -/
theorem non_string_value_skipped (fr : Fresh) (frs : List Fresh)
    (rest : List Event) :
    computingChange fr ⟨some ZValue.nonStringValue⟩ = ChangeRes.skipped ∧
    motionChange fr ⟨some ZValue.nonStringValue⟩ = ChangeRes.skipped ∧
    computingRun frs (Event.change ⟨some ZValue.nonStringValue⟩ :: rest) =
      computingRun frs rest ∧
    motionRun frs (Event.change ⟨some ZValue.nonStringValue⟩ :: rest) =
      motionRun frs rest := by
  refine ⟨rfl, rfl, ?_, ?_⟩
  · exact loopRun_cons_skipped _ _ _ _ rfl
  · exact loopRun_cons_skipped _ _ _ _ rfl

/-- C2: three-stage chain with explicit fresh ids: the producer publishes an
envelope carrying its root span's formatted context; the transformer starts
its child under that recovered parent — parent span id equals the producer's
span id — and writes its own new span's context, not the inbound parent's,
into the outgoing envelope on the action topic; the consumer's span then has
parent span id equal to the transformer's span id. -/
theorem transformer_injects_own_span_context_chain
    (t1 s1 acq out1 t2 s2 out2 t3 s3 x3 : Nat)
    (ht1 : t1 ≠ 0) (hs1 : s1 ≠ 0) (ht1b : t1 < 2 ^ 128) (hs1b : s1 < 2 ^ 64)
    (hout1 : out1 < 2 ^ 64) (hs2 : s2 ≠ 0) (hs2b : s2 < 2 ^ 64)
    (hout2 : out2 < 2 ^ 64) :
    sensorRun t1 s1 acq out1 =
      some [Action.spanStarted ⟨sensorSpanName, sensorAttrs, t1, s1, 0, 1⟩,
        Action.slept acq,
        Action.addedEvent "sensor data".data
          [("sleeping time".data, natToDecimal out1),
           ("span context".data, traceparentValue ⟨t1, s1, 1, false⟩)],
        Action.published sensorTopic
          (serializeMessage ⟨out1, traceparentValue ⟨t1, s1, 1, false⟩⟩),
        Action.spanEnded ⟨sensorSpanName, sensorAttrs, t1, s1, 0, 1⟩] ∧
    computingChange ⟨t2, s2, out2⟩
      ⟨some (ZValue.stringUtf8
        (serializeMessage ⟨out1, traceparentValue ⟨t1, s1, 1, false⟩⟩))⟩ =
      ChangeRes.processed
        [Action.printedMessage ⟨out1, traceparentValue ⟨t1, s1, 1, false⟩⟩,
         Action.spanStarted
           ⟨computingSpanName, computingAttrs, t1, s2, s1, 1⟩,
         Action.slept out1,
         Action.published actionTopic
           (serializeMessage ⟨out2, traceparentValue ⟨t1, s2, 1, false⟩⟩),
         Action.spanEnded
           ⟨computingSpanName, computingAttrs, t1, s2, s1, 1⟩] ∧
    motionChange ⟨t3, s3, x3⟩
      ⟨some (ZValue.stringUtf8
        (serializeMessage ⟨out2, traceparentValue ⟨t1, s2, 1, false⟩⟩))⟩ =
      ChangeRes.processed
        [Action.printedMessage ⟨out2, traceparentValue ⟨t1, s2, 1, false⟩⟩,
         Action.spanStarted ⟨motionSpanName, motionAttrs, t1, s3, s2, 1⟩,
         Action.slept out2,
         Action.spanEnded ⟨motionSpanName, motionAttrs, t1, s3, s2, 1⟩] := by
  refine ⟨sensorRun_eq t1 s1 acq out1 ht1 hs1, ?_, ?_⟩
  · have hdes := deserialize_serialize
      ⟨out1, traceparentValue ⟨t1, s1, 1, false⟩⟩
      (traceparentValue_json_safe _) hout1
    have hval1 : scIsValid ⟨t1, s1, 1, false⟩ = true := by
      simp [scIsValid, ht1, hs1]
    have h11 : (1 : Nat) &&& 1 = 1 := rfl
    have hext := extract_of_traceparent
      (strMapInsert [] traceparentKey (traceparentValue ⟨t1, s1, 1, false⟩))
      ⟨t1, s1, 1, false⟩ (strMapGet_insert_self _ _) hval1 ht1b hs1b
    rw [h11] at hext
    have hcc := computingChange_child ⟨t2, s2, out2⟩ _ _ ⟨t1, s1, 1, true⟩
      hdes hext hs2
    simpa only [h11] using hcc
  · have hdes := deserialize_serialize
      ⟨out2, traceparentValue ⟨t1, s2, 1, false⟩⟩
      (traceparentValue_json_safe _) hout2
    have hval2 : scIsValid ⟨t1, s2, 1, false⟩ = true := by
      simp [scIsValid, ht1, hs2]
    have h11 : (1 : Nat) &&& 1 = 1 := rfl
    have hext := extract_of_traceparent
      (strMapInsert [] traceparentKey (traceparentValue ⟨t1, s2, 1, false⟩))
      ⟨t1, s2, 1, false⟩ (strMapGet_insert_self _ _) hval2 ht1b hs2b
    rw [h11] at hext
    have hmc := motionChange_child ⟨t3, s3, x3⟩ _ _ ⟨t1, s2, 1, true⟩
      hdes hext
    simpa only [h11] using hmc

/-- C2 witness: the chain evaluated at the concrete fresh ids 1, 2, 5, 8 for
the three stages' id generators. -/
theorem transformer_injects_own_span_context_chain_witness :
    sensorRun 1 2 0 3 =
      some [Action.spanStarted ⟨sensorSpanName, sensorAttrs, 1, 2, 0, 1⟩,
        Action.slept 0,
        Action.addedEvent "sensor data".data
          [("sleeping time".data, natToDecimal 3),
           ("span context".data, traceparentValue ⟨1, 2, 1, false⟩)],
        Action.published sensorTopic
          (serializeMessage ⟨3, traceparentValue ⟨1, 2, 1, false⟩⟩),
        Action.spanEnded ⟨sensorSpanName, sensorAttrs, 1, 2, 0, 1⟩] ∧
    computingChange ⟨4, 5, 6⟩
      ⟨some (ZValue.stringUtf8
        (serializeMessage ⟨3, traceparentValue ⟨1, 2, 1, false⟩⟩))⟩ =
      ChangeRes.processed
        [Action.printedMessage ⟨3, traceparentValue ⟨1, 2, 1, false⟩⟩,
         Action.spanStarted ⟨computingSpanName, computingAttrs, 1, 5, 2, 1⟩,
         Action.slept 3,
         Action.published actionTopic
           (serializeMessage ⟨6, traceparentValue ⟨1, 5, 1, false⟩⟩),
         Action.spanEnded ⟨computingSpanName, computingAttrs, 1, 5, 2, 1⟩] ∧
    motionChange ⟨7, 8, 9⟩
      ⟨some (ZValue.stringUtf8
        (serializeMessage ⟨6, traceparentValue ⟨1, 5, 1, false⟩⟩))⟩ =
      ChangeRes.processed
        [Action.printedMessage ⟨6, traceparentValue ⟨1, 5, 1, false⟩⟩,
         Action.spanStarted ⟨motionSpanName, motionAttrs, 1, 8, 5, 1⟩,
         Action.slept 6,
         Action.spanEnded ⟨motionSpanName, motionAttrs, 1, 8, 5, 1⟩] :=
  transformer_injects_own_span_context_chain 1 2 0 3 4 5 6 7 8 9
    (by decide) (by decide) (by decide) (by decide) (by decide) (by decide)
    (by decide) (by decide)

/-- C5 counterexample: a concrete processed consumer iteration starts a span
whose attribute list has no messaging.destination key, so not every stage's
span carries the full fixed attribute set. -/
theorem span_attribute_set_counterexample :
    motionChange ⟨1, 1, 0⟩
      ⟨some (ZValue.stringUtf8 (serializeMessage ⟨5, "abc".data⟩))⟩ =
      ChangeRes.processed
        [Action.printedMessage ⟨5, "abc".data⟩,
         Action.spanStarted ⟨motionSpanName, motionAttrs, 1, 1, 0, 1⟩,
         Action.slept 5,
         Action.spanEnded ⟨motionSpanName, motionAttrs, 1, 1, 0, 1⟩] ∧
    MESSAGING_DESTINATION ∉ motionAttrs.map Prod.fst ∧
    MESSAGING_DESTINATION ∈ computingAttrs.map Prod.fst :=
  ⟨by decide, by decide, by decide⟩

/-- C5 (amended): every producer and transformer span carries
messaging.system, messaging.operation and messaging.destination, but every
consumer span carries only messaging.system and messaging.operation — its
attribute set has no messaging.destination. -/
theorem span_attribute_sets :
    (∀ (t s a o : Nat) (acts : List Action) (sp : SpanData),
      sensorRun t s a o = some acts →
      Action.spanStarted sp ∈ acts → sp.attributes = sensorAttrs) ∧
    (∀ (fr : Fresh) (c : Change) (acts : List Action) (sp : SpanData),
      computingChange fr c = ChangeRes.processed acts →
      Action.spanStarted sp ∈ acts → sp.attributes = computingAttrs) ∧
    (∀ (fr : Fresh) (c : Change) (acts : List Action) (sp : SpanData),
      motionChange fr c = ChangeRes.processed acts →
      Action.spanStarted sp ∈ acts → sp.attributes = motionAttrs) ∧
    (MESSAGING_SYSTEM ∈ sensorAttrs.map Prod.fst ∧
      MESSAGING_OPERATION ∈ sensorAttrs.map Prod.fst ∧
      MESSAGING_DESTINATION ∈ sensorAttrs.map Prod.fst) ∧
    (MESSAGING_SYSTEM ∈ computingAttrs.map Prod.fst ∧
      MESSAGING_OPERATION ∈ computingAttrs.map Prod.fst ∧
      MESSAGING_DESTINATION ∈ computingAttrs.map Prod.fst) ∧
    (MESSAGING_SYSTEM ∈ motionAttrs.map Prod.fst ∧
      MESSAGING_OPERATION ∈ motionAttrs.map Prod.fst ∧
      MESSAGING_DESTINATION ∉ motionAttrs.map Prod.fst) := by
  refine ⟨?_, ?_, ?_, by decide, by decide, by decide⟩
  · intro t s a o acts sp h hm
    obtain ⟨sp2, en, ea, pl, rfl, hattr⟩ := sensorRun_inv t s a o acts h
    simp only [List.mem_cons, List.not_mem_nil, or_false] at hm
    rcases hm with h1 | h1 | h1 | h1 | h1
    · cases h1
      exact hattr
    · cases h1
    · cases h1
    · cases h1
    · cases h1
  · intro fr c acts sp h hm
    obtain ⟨m, sp2, pl, rfl, hattr⟩ := computingChange_processed_inv fr c acts h
    simp only [List.mem_cons, List.not_mem_nil, or_false] at hm
    rcases hm with h1 | h1 | h1 | h1 | h1
    · cases h1
    · cases h1
      exact hattr
    · cases h1
    · cases h1
    · cases h1
  · intro fr c acts sp h hm
    obtain ⟨m, sp2, rfl, hattr⟩ := motionChange_processed_inv fr c acts h
    simp only [List.mem_cons, List.not_mem_nil, or_false] at hm
    rcases hm with h1 | h1 | h1 | h1
    · cases h1
    · cases h1
      exact hattr
    · cases h1
    · cases h1

/-- C5 witness: the amended attribute claim applied to a concrete processed
consumer iteration. -/
theorem span_attribute_sets_witness :
    (⟨motionSpanName, motionAttrs, 1, 1, 0, 1⟩ : SpanData).attributes =
      motionAttrs :=
  span_attribute_sets.2.2.1 ⟨1, 1, 0⟩
    ⟨some (ZValue.stringUtf8 (serializeMessage ⟨4, "ab".data⟩))⟩
    [Action.printedMessage ⟨4, "ab".data⟩,
     Action.spanStarted ⟨motionSpanName, motionAttrs, 1, 1, 0, 1⟩,
     Action.slept 4,
     Action.spanEnded ⟨motionSpanName, motionAttrs, 1, 1, 0, 1⟩]
    ⟨motionSpanName, motionAttrs, 1, 1, 0, 1⟩ (by decide) (by decide)

/-- C6: cancellation is evaluated only between loop iterations: when a
processed message is followed by the stop sentinel, every action of that
iteration — including the transformer's publish — completes before the loop
exits and the subscription closes; likewise for the consumer. -/
theorem cancellation_between_iterations :
    (∀ (fr : Fresh) (frs : List Fresh) (c : Change) (acts : List Action)
      (rest : List Event),
      computingChange fr c = ChangeRes.processed acts →
      (∃ pl, Action.published actionTopic pl ∈ acts) ∧
      computingRun (fr :: frs)
        (Event.change c :: Event.stdinByte stopByte :: rest) =
        (acts ++ [Action.closedSubscription], LoopExit.stopped)) ∧
    (∀ (fr : Fresh) (frs : List Fresh) (c : Change) (acts : List Action)
      (rest : List Event),
      motionChange fr c = ChangeRes.processed acts →
      motionRun (fr :: frs)
        (Event.change c :: Event.stdinByte stopByte :: rest) =
        (acts ++ [Action.closedSubscription], LoopExit.stopped)) := by
  constructor
  · intro fr frs c acts rest h
    constructor
    · obtain ⟨m, sp, pl, rfl, -⟩ := computingChange_processed_inv fr c acts h
      exact ⟨pl, by simp⟩
    · simp only [computingRun]
      rw [loopRun_cons_processed _ _ _ _ _ _ h, loopRun_stdin_stop]
  · intro fr frs c acts rest h
    simp only [motionRun]
    rw [loopRun_cons_processed _ _ _ _ _ _ h, loopRun_stdin_stop]

/-- C6 witness: the cancellation claim evaluated at a concrete processed
message followed by the stop sentinel. -/
theorem cancellation_between_iterations_witness :
    (∃ pl, Action.published actionTopic pl ∈
      ([Action.printedMessage ⟨5, "ab".data⟩,
        Action.spanStarted ⟨computingSpanName, computingAttrs, 1, 1, 0, 1⟩,
        Action.slept 5,
        Action.published actionTopic
          (serializeMessage ⟨0, traceparentValue ⟨1, 1, 1, false⟩⟩),
        Action.spanEnded ⟨computingSpanName, computingAttrs, 1, 1, 0, 1⟩] :
        List Action)) ∧
    computingRun [⟨1, 1, 0⟩]
      (Event.change
        ⟨some (ZValue.stringUtf8 (serializeMessage ⟨5, "ab".data⟩))⟩ ::
        Event.stdinByte stopByte :: []) =
      ([Action.printedMessage ⟨5, "ab".data⟩,
        Action.spanStarted ⟨computingSpanName, computingAttrs, 1, 1, 0, 1⟩,
        Action.slept 5,
        Action.published actionTopic
          (serializeMessage ⟨0, traceparentValue ⟨1, 1, 1, false⟩⟩),
        Action.spanEnded ⟨computingSpanName, computingAttrs, 1, 1, 0, 1⟩] ++
        [Action.closedSubscription], LoopExit.stopped) :=
  cancellation_between_iterations.1 ⟨1, 1, 0⟩ []
    ⟨some (ZValue.stringUtf8 (serializeMessage ⟨5, "ab".data⟩))⟩
    [Action.printedMessage ⟨5, "ab".data⟩,
     Action.spanStarted ⟨computingSpanName, computingAttrs, 1, 1, 0, 1⟩,
     Action.slept 5,
     Action.published actionTopic
       (serializeMessage ⟨0, traceparentValue ⟨1, 1, 1, false⟩⟩),
     Action.spanEnded ⟨computingSpanName, computingAttrs, 1, 1, 0, 1⟩]
    [] (by decide)

/-- C7: FIFO with a single in-flight message: with two messages delivered to
the transformer's subscription, every action of the first iteration precedes
every action of the second — the second message contributes nothing until
the first iteration has completed. -/
theorem fifo_single_inflight (fr1 fr2 : Fresh) (frs : List Fresh)
    (c1 c2 : Change) (a1 a2 : List Action) (rest : List Event)
    (h1 : computingChange fr1 c1 = ChangeRes.processed a1)
    (h2 : computingChange fr2 c2 = ChangeRes.processed a2) :
    computingRun (fr1 :: fr2 :: frs)
      (Event.change c1 :: Event.change c2 :: rest) =
      (a1 ++ (a2 ++ (computingRun frs rest).1),
        (computingRun frs rest).2) := by
  simp only [computingRun]
  rw [loopRun_cons_processed _ _ _ _ _ _ h1,
    loopRun_cons_processed _ _ _ _ _ _ h2]

/-- C7 witness: the FIFO claim evaluated at two concrete messages. -/
theorem fifo_single_inflight_witness :
    computingRun [⟨1, 1, 0⟩, ⟨1, 2, 0⟩]
      (Event.change
        ⟨some (ZValue.stringUtf8 (serializeMessage ⟨2, "ab".data⟩))⟩ ::
        Event.change
        ⟨some (ZValue.stringUtf8 (serializeMessage ⟨3, "cd".data⟩))⟩ :: []) =
      ([Action.printedMessage ⟨2, "ab".data⟩,
        Action.spanStarted ⟨computingSpanName, computingAttrs, 1, 1, 0, 1⟩,
        Action.slept 2,
        Action.published actionTopic
          (serializeMessage ⟨0, traceparentValue ⟨1, 1, 1, false⟩⟩),
        Action.spanEnded ⟨computingSpanName, computingAttrs, 1, 1, 0, 1⟩] ++
        ([Action.printedMessage ⟨3, "cd".data⟩,
          Action.spanStarted ⟨computingSpanName, computingAttrs, 1, 2, 0, 1⟩,
          Action.slept 3,
          Action.published actionTopic
            (serializeMessage ⟨0, traceparentValue ⟨1, 2, 1, false⟩⟩),
          Action.spanEnded ⟨computingSpanName, computingAttrs, 1, 2, 0, 1⟩] ++
          (computingRun [] []).1), (computingRun [] []).2) :=
  fifo_single_inflight ⟨1, 1, 0⟩ ⟨1, 2, 0⟩ []
    ⟨some (ZValue.stringUtf8 (serializeMessage ⟨2, "ab".data⟩))⟩
    ⟨some (ZValue.stringUtf8 (serializeMessage ⟨3, "cd".data⟩))⟩
    [Action.printedMessage ⟨2, "ab".data⟩,
     Action.spanStarted ⟨computingSpanName, computingAttrs, 1, 1, 0, 1⟩,
     Action.slept 2,
     Action.published actionTopic
       (serializeMessage ⟨0, traceparentValue ⟨1, 1, 1, false⟩⟩),
     Action.spanEnded ⟨computingSpanName, computingAttrs, 1, 1, 0, 1⟩]
    [Action.printedMessage ⟨3, "cd".data⟩,
     Action.spanStarted ⟨computingSpanName, computingAttrs, 1, 2, 0, 1⟩,
     Action.slept 3,
     Action.published actionTopic
       (serializeMessage ⟨0, traceparentValue ⟨1, 2, 1, false⟩⟩),
     Action.spanEnded ⟨computingSpanName, computingAttrs, 1, 2, 0, 1⟩]
    [] (by decide) (by decide)

end ZenohOtel
